import Mathlib

/-!
Verification of the ZATCA QR-code TLV encoder of the invoice system
(`src/utils/qrCodeUtils.ts`).

The encoder is shallowly embedded: JavaScript strings are Lean `String`s,
`TextEncoder` is the standard UTF-8 encoding into `List Nat` bytes,
`Uint8Array` element assignment truncates modulo 256, JavaScript numbers
are embedded as rationals (`ℚ`), and `btoa` is standard base64 over byte
lists.  The host clock (`new Date()` with no argument) is passed in
explicitly as the string `now`, the ISO rendering of the current instant.
-/

namespace Zatca

/-- UTF-8 encoding of a single Unicode scalar value, as produced by
JavaScript's `TextEncoder` (Lean `Char`s are scalar values, so no
surrogate handling is needed). -/
def utf8EncodeChar (c : Char) : List Nat :=
  let n := c.toNat
  if n < 128 then [n]
  else if n < 2048 then [192 + n / 64, 128 + n % 64]
  else if n < 65536 then [224 + n / 4096, 128 + n / 64 % 64, 128 + n % 64]
  else [240 + n / 262144, 128 + n / 4096 % 64, 128 + n / 64 % 64, 128 + n % 64]

/-- The UTF-8 byte sequence of a string (`new TextEncoder().encode(value)`). -/
def utf8Bytes (s : String) : List Nat :=
  s.data.flatMap utf8EncodeChar

/-- `encodeTLV` from `qrCodeUtils.ts`: builds `[tag][length][value-bytes]`.
The tag and length are stored into single `Uint8Array` cells, which
truncates them modulo 256; the value bytes are stored unmodified. -/
def encodeTLV (tag : Nat) (value : String) : List Nat :=
  let valueBytes := utf8Bytes value
  let length := valueBytes.length
  tag % 256 :: length % 256 :: valueBytes

/-- Every Unicode scalar value is below 0x110000. -/
theorem char_toNat_lt (c : Char) : c.toNat < 1114112 := by
  have h := c.valid
  rcases h with h | ⟨_, h⟩
  · exact Nat.lt_trans h (by decide)
  · exact h

/-- Every byte produced by the UTF-8 encoder fits in one octet. -/
theorem utf8EncodeChar_lt (c : Char) : ∀ b ∈ utf8EncodeChar c, b < 256 := by
  intro b hb
  have hn := char_toNat_lt c
  unfold utf8EncodeChar at hb
  set n := c.toNat with hdef
  by_cases h1 : n < 128
  · simp [h1] at hb; omega
  · by_cases h2 : n < 2048
    · simp [h1, h2] at hb
      have : n / 64 < 32 := by omega
      rcases hb with hb | hb <;> omega
    · by_cases h3 : n < 65536
      · simp [h1, h2, h3] at hb
        have : n / 4096 < 16 := by omega
        have : n / 64 % 64 < 64 := Nat.mod_lt _ (by decide)
        rcases hb with hb | hb | hb <;> omega
      · simp [h1, h2, h3] at hb
        have : n / 262144 < 5 := by omega
        have : n / 4096 % 64 < 64 := Nat.mod_lt _ (by decide)
        have : n / 64 % 64 < 64 := Nat.mod_lt _ (by decide)
        rcases hb with hb | hb | hb | hb <;> omega

/-- Every byte of a UTF-8 encoded string fits in one octet. -/
theorem utf8Bytes_lt (s : String) : ∀ b ∈ utf8Bytes s, b < 256 := by
  intro b hb
  unfold utf8Bytes at hb
  rcases List.mem_flatMap.mp hb with ⟨c, _, hc⟩
  exact utf8EncodeChar_lt c b hc

/-- The decimal digit character for `k < 10`. -/
def digitChar (k : Nat) : Char := Char.ofNat (48 + k)

/-- Fuel-driven digit accumulator; `fuel` only bounds the recursion depth
(any `fuel > n` is enough, see `natDigitsAux_fuel`). -/
def natDigitsAux : Nat → Nat → List Char
  | 0, _ => []
  | fuel + 1, n =>
    if n < 10 then [digitChar n]
    else natDigitsAux fuel (n / 10) ++ [digitChar (n % 10)]

/-- Decimal digit list of a natural number, most significant first
(JavaScript's default base-10 rendering of a non-negative integer:
plain digits, no grouping separators). -/
def natDigits (n : Nat) : List Char := natDigitsAux (n + 1) n

/-- The digit list does not depend on the fuel, as long as it exceeds `n`. -/
theorem natDigitsAux_fuel : ∀ f1 f2 n, n < f1 → n < f2 →
    natDigitsAux f1 n = natDigitsAux f2 n := by
  intro f1
  induction f1 with
  | zero => intro f2 n h1; omega
  | succ a ih =>
    intro f2 n h1 h2
    match f2, h2 with
    | b + 1, h2 =>
      simp only [natDigitsAux]
      by_cases h10 : n < 10
      · simp [h10]
      · simp only [h10, if_false]
        have hd : n / 10 < n := Nat.div_lt_self (by omega) (by omega)
        rw [ih b (n / 10) (by omega) (by omega)]

/-- Base-10 rendering of a natural number as a string. -/
def natToString (n : Nat) : String := String.mk (natDigits n)

/-- Zero-padded two-digit rendering of `k < 100`. -/
def pad2 (k : Nat) : String :=
  if k < 10 then "0" ++ natToString k else natToString k

/-- Digit list with trailing `'0'` characters removed. -/
def stripZeros (l : List Char) : List Char :=
  (l.reverse.dropWhile (fun c => c == '0')).reverse

/-- ECMAScript `ToString` of a non-negative integer of magnitude at
least `10^21` (the form `Number.prototype.toFixed` returns above its
threshold): the significand digits with trailing zeros stripped, a
decimal point only when more than one digit survives, then `e+` and the
decimal exponent.  The engine prints the shortest digit string that
identifies the double; this exact-digit rendering coincides with it on
inputs whose exact decimal expansion is already shortest (such as
`10^21` itself, which prints `1e+21`). -/
def jsLargeToString (m : Nat) : String :=
  let ds := natDigits m
  match stripZeros ds with
  | [] => "0"
  | [d] => String.mk [d] ++ "e+" ++ natToString (ds.length - 1)
  | d :: rest => String.mk [d] ++ "." ++ String.mk rest ++ "e+" ++
      natToString (ds.length - 1)

/-- Model of JavaScript's `Number.prototype.toFixed(2)` over exact
rationals.  Following the ECMAScript algorithm, the sign is extracted
first; then, when `|x| ≥ 10^21` (stated on the representation as
`10^21 * den ≤ |num|`), the result is the `ToString` rendering of `|x|`
in exponential notation — with no fixed two-digit fraction.  Every
double of magnitude at least `10^21` exceeds `2^53` and is therefore an
integer, so on program-reachable inputs the division `|num| / den` is
by `den = 1` and exact.  Below the threshold, the integer `n` nearest
to `100 * |x|` (ties rounded up, i.e. toward the larger `n`) is printed
as `⌊n / 100⌋ . (n mod 100)` with the fraction zero-padded to two
digits; `⌊100|x| + 1/2⌋` is computed directly on the
numerator/denominator as `(200|num| + den) / (2 den)` in ℕ. -/
def toFixed2 (x : ℚ) : String :=
  let sign := if x < 0 then "-" else ""
  if 1000000000000000000000 * x.den ≤ x.num.natAbs then
    sign ++ jsLargeToString (x.num.natAbs / x.den)
  else
    let n := (200 * x.num.natAbs + x.den) / (2 * x.den)
    sign ++ natToString (n / 100) ++ "." ++ pad2 (n % 100)

/-! ### TLV stream re-parsing

A reference decoder for the claim that the produced byte stream is a
well-formed TLV sequence: read a tag byte and a length byte, take that
many value bytes, and repeat until the buffer is exactly exhausted. -/

/-- Fuel-driven TLV record reader (any `fuel ≥` the buffer length is
enough, see `parseTLVGo_fuel`).  Returns `none` on a truncated record. -/
def parseTLVGo : Nat → List Nat → Option (List (Nat × List Nat))
  | _, [] => some []
  | 0, _ :: _ => none
  | _ + 1, [_] => none
  | fuel + 1, t :: l :: rest =>
    if l ≤ rest.length then
      match parseTLVGo fuel (rest.drop l) with
      | some recs => some ((t, rest.take l) :: recs)
      | none => none
    else none

/-- Re-parse a byte buffer as consecutive TLV records; `some records`
exactly when the `2 + length` chunks span the whole buffer. -/
def parseTLVRecords (bs : List Nat) : Option (List (Nat × List Nat)) :=
  parseTLVGo bs.length bs

/-- The TLV reader does not depend on the fuel once it covers the
buffer length. -/
theorem parseTLVGo_fuel : ∀ f1 f2 bs, bs.length ≤ f1 → bs.length ≤ f2 →
    parseTLVGo f1 bs = parseTLVGo f2 bs := by
  intro f1
  induction f1 with
  | zero =>
    intro f2 bs h1 h2
    match bs, h1 with
    | [], _ => cases f2 <;> rfl
  | succ a ih =>
    intro f2 bs h1 h2
    rcases bs with _ | ⟨t, _ | ⟨l, rest⟩⟩
    · cases f2 <;> rfl
    · simp only [List.length_cons, List.length_nil] at h2
      match f2, h2 with
      | b + 1, _ => rfl
    · simp only [List.length_cons] at h1 h2
      match f2, h2 with
      | b + 1, h2 =>
        simp only [parseTLVGo]
        by_cases hl : l ≤ rest.length
        · simp only [hl, if_true]
          rw [ih b (rest.drop l) (by simp [List.length_drop]; omega)
            (by simp [List.length_drop]; omega)]
        · simp [hl]

/-- One TLV record followed by more bytes parses to the record's
tag and value bytes, followed by the parse of the remaining bytes. -/
theorem parseTLVRecords_encodeTLV_append (t : Nat) (v : String) (rest : List Nat)
    (hv : (utf8Bytes v).length ≤ 255) :
    parseTLVRecords (encodeTLV t v ++ rest) =
      match parseTLVRecords rest with
      | some recs => some ((t % 256, utf8Bytes v) :: recs)
      | none => none := by
  unfold parseTLVRecords encodeTLV
  have hmod : (utf8Bytes v).length % 256 = (utf8Bytes v).length :=
    Nat.mod_eq_of_lt (by omega)
  simp only [List.cons_append, List.length_cons, List.length_append]
  simp only [parseTLVGo, hmod]
  have hle : (utf8Bytes v).length ≤ (utf8Bytes v ++ rest).length := by
    simp [List.length_append]
  simp only [hle, if_true]
  rw [List.take_left, List.drop_left]
  rw [parseTLVGo_fuel ((utf8Bytes v).length + rest.length + 1) rest.length rest
    (by omega) (le_refl _)]

/-! ### Base64 (`btoa`) and its inverse -/

/-- The standard base64 alphabet. -/
def b64Alphabet : List Char :=
  "ABCDEFGHIJKLMNOPQRSTUVWXYZabcdefghijklmnopqrstuvwxyz0123456789+/".data

/-- The base64 character for a sextet `i < 64`. -/
def b64Char (i : Nat) : Char := b64Alphabet.getD i 'A'

/-- Index scanner for the base64 alphabet. -/
def b64IndexAux : List Char → Char → Nat → Option Nat
  | [], _, _ => none
  | a :: rest, c, i => if a = c then some i else b64IndexAux rest c (i + 1)

/-- The sextet denoted by a base64 character (`none` for characters
outside the alphabet, in particular for `'='`). -/
def b64Index (c : Char) : Option Nat := b64IndexAux b64Alphabet c 0

/-- Standard base64 of a byte list, with `'='` padding, exactly as
`btoa` produces: each 3-byte group becomes 4 sextet characters. -/
def base64EncodeList : List Nat → List Char
  | [] => []
  | [b1] => [b64Char (b1 / 4), b64Char (b1 % 4 * 16), '=', '=']
  | [b1, b2] => [b64Char (b1 / 4), b64Char (b1 % 4 * 16 + b2 / 16),
      b64Char (b2 % 16 * 4), '=']
  | b1 :: b2 :: b3 :: rest =>
    b64Char (b1 / 4) :: b64Char (b1 % 4 * 16 + b2 / 16) ::
      b64Char (b2 % 16 * 4 + b3 / 64) :: b64Char (b3 % 64) ::
      base64EncodeList rest

/-- Base64 decoding of a character list back to bytes; `none` on any
malformed input. -/
def base64DecodeChars : List Char → Option (List Nat)
  | [] => some []
  | c1 :: c2 :: c3 :: c4 :: rest =>
    match b64Index c1, b64Index c2 with
    | some i1, some i2 =>
      if c3 = '=' then
        if c4 = '=' ∧ rest = [] then some [i1 * 4 + i2 / 16] else none
      else
        match b64Index c3 with
        | some i3 =>
          if c4 = '=' then
            if rest = [] then some [i1 * 4 + i2 / 16, i2 % 16 * 16 + i3 / 4]
            else none
          else
            match b64Index c4, base64DecodeChars rest with
            | some i4, some bs =>
              some ((i1 * 4 + i2 / 16) :: (i2 % 16 * 16 + i3 / 4) ::
                (i3 % 4 * 64 + i4) :: bs)
            | _, _ => none
        | none => none
    | _, _ => none
  | _ => none

/-- Base64 decoding of a string. -/
def base64Decode (s : String) : Option (List Nat) := base64DecodeChars s.data

/-- Model of the browser's `btoa(String.fromCharCode(...bytes))`:
`btoa` raises for any code unit above 255, hence the `Option`. -/
def btoa (bs : List Nat) : Option String :=
  if bs.all (fun b => b < 256) then some (String.mk (base64EncodeList bs))
  else none

theorem b64Index_b64Char : ∀ i, i < 64 → b64Index (b64Char i) = some i := by decide

theorem b64Char_ne_eq : ∀ i, i < 64 → ¬b64Char i = '=' := by decide

/-- Base64 decoding inverts base64 encoding on genuine byte lists. -/
theorem base64_roundtrip : ∀ bs : List Nat, (∀ b ∈ bs, b < 256) →
    base64DecodeChars (base64EncodeList bs) = some bs := by
  have key : ∀ n bs, List.length bs ≤ n → (∀ b ∈ bs, b < 256) →
      base64DecodeChars (base64EncodeList bs) = some bs := by
    intro n
    induction n with
    | zero =>
      intro bs hl _
      match bs, hl with
      | [], _ => rfl
    | succ m ih =>
      intro bs hl h
      rcases bs with _ | ⟨b1, _ | ⟨b2, _ | ⟨b3, rest⟩⟩⟩
      · rfl
      · have hb1 : b1 < 256 := h b1 (by simp)
        have h1 : b1 / 4 < 64 := by omega
        have h2 : b1 % 4 * 16 < 64 := by omega
        simp only [base64EncodeList, base64DecodeChars,
          b64Index_b64Char _ h1, b64Index_b64Char _ h2]
        simp only [if_pos rfl, and_self, if_true]
        simp only [Option.some.injEq, List.cons.injEq, and_true]
        omega
      · have hb1 : b1 < 256 := h b1 (by simp)
        have hb2 : b2 < 256 := h b2 (by simp)
        have h1 : b1 / 4 < 64 := by omega
        have h2 : b1 % 4 * 16 + b2 / 16 < 64 := by omega
        have h3 : b2 % 16 * 4 < 64 := by omega
        simp only [base64EncodeList, base64DecodeChars,
          b64Index_b64Char _ h1, b64Index_b64Char _ h2, b64Index_b64Char _ h3,
          b64Char_ne_eq _ h3, if_false]
        simp only [if_pos rfl, if_true]
        simp only [Option.some.injEq, List.cons.injEq, and_true]
        constructor <;> omega
      · have hb1 : b1 < 256 := h b1 (by simp)
        have hb2 : b2 < 256 := h b2 (by simp)
        have hb3 : b3 < 256 := h b3 (by simp)
        have h1 : b1 / 4 < 64 := by omega
        have h2 : b1 % 4 * 16 + b2 / 16 < 64 := by omega
        have h3 : b2 % 16 * 4 + b3 / 64 < 64 := by omega
        have h4 : b3 % 64 < 64 := by omega
        have hrest : base64DecodeChars (base64EncodeList rest) = some rest := by
          apply ih rest (by simp at hl; omega)
          intro b hb; exact h b (by simp [hb])
        simp only [base64EncodeList, base64DecodeChars,
          b64Index_b64Char _ h1, b64Index_b64Char _ h2, b64Index_b64Char _ h3,
          b64Index_b64Char _ h4, b64Char_ne_eq _ h3, b64Char_ne_eq _ h4,
          if_false, hrest]
        simp only [Option.some.injEq, List.cons.injEq, and_true]
        refine ⟨by omega, by omega, by omega⟩
  intro bs h
  exact key bs.length bs (le_refl _) h

/-- `btoa` followed by base64 decoding recovers the bytes. -/
theorem btoa_roundtrip (bs : List Nat) (h : ∀ b ∈ bs, b < 256) :
    ∃ s, btoa bs = some s ∧ base64Decode s = some bs := by
  refine ⟨String.mk (base64EncodeList bs), ?_, ?_⟩
  · unfold btoa
    rw [if_pos (by simpa using h)]
  · unfold base64Decode
    exact base64_roundtrip bs h

/-! ### The ECMAScript date handling used by the encoder

`generateZatcaQrCode` runs `new Date(invoice.date + 'T00:00:00.000Z')`,
checks `isNaN(date.getTime())`, and on success renders the date with
`toISOString()`.  The strings reaching this parse are always of the form
`<date-field> ++ "T00:00:00.000Z"`, so the composition is modelled on the
canonical ECMAScript date-time string format `YYYY-MM-DDTHH:mm:ss.sssZ`:
such a string with in-range calendar fields denotes a UTC instant whose
`toISOString` rendering is the very same string, and any other string
yields an invalid date (`NaN` time value). -/

/-- Is `c` a decimal digit (`'0'`–`'9'`)? -/
def isDig (c : Char) : Bool := decide (48 ≤ c.toNat ∧ c.toNat ≤ 57)

/-- Numeric value of a digit character. -/
def c2n (c : Char) : Nat := c.toNat - 48

/-- Gregorian leap-year rule. -/
def isLeapYear (y : Nat) : Bool :=
  (y % 4 == 0 && y % 100 != 0) || y % 400 == 0

/-- Number of days of month `m` (1–12) of year `y`. -/
def daysInMonth (y m : Nat) : Nat :=
  if m = 2 then (if isLeapYear y then 29 else 28)
  else if m = 4 ∨ m = 6 ∨ m = 9 ∨ m = 11 then 30
  else 31

/-- Does the character list spell a canonical `YYYY-MM-DDTHH:mm:ss.sssZ`
UTC instant with in-range calendar and time-of-day fields? -/
def validISOChars : List Char → Bool
  | [y1, y2, y3, y4, s1, m1, m2, s2, d1, d2, t, h1, h2, c1, mi1, mi2, c2,
     ss1, ss2, p, f1, f2, f3, z] =>
    s1 == '-' && s2 == '-' && t == 'T' && c1 == ':' && c2 == ':' &&
    p == '.' && z == 'Z' &&
    isDig y1 && isDig y2 && isDig y3 && isDig y4 &&
    isDig m1 && isDig m2 && isDig d1 && isDig d2 &&
    isDig h1 && isDig h2 && isDig mi1 && isDig mi2 &&
    isDig ss1 && isDig ss2 && isDig f1 && isDig f2 && isDig f3 &&
    decide (1 ≤ 10 * c2n m1 + c2n m2) &&
    decide (10 * c2n m1 + c2n m2 ≤ 12) &&
    decide (1 ≤ 10 * c2n d1 + c2n d2) &&
    decide (10 * c2n d1 + c2n d2 ≤
      daysInMonth (1000 * c2n y1 + 100 * c2n y2 + 10 * c2n y3 + c2n y4)
        (10 * c2n m1 + c2n m2)) &&
    decide (10 * c2n h1 + c2n h2 < 24) &&
    decide (10 * c2n mi1 + c2n mi2 < 60) &&
    decide (10 * c2n ss1 + c2n ss2 < 60)
  | _ => false

/-- Modelled composition of `new Date(s)` (canonical ECMAScript date-time
string format, UTC designator) with the `isNaN` validity check and
`Date.prototype.toISOString`, which is the identity on canonical
in-range strings. -/
def jsDateToISO (s : String) : Option String :=
  if validISOChars s.data then some s else none

/-- Does the character list spell a calendar date `YYYY-MM-DD` with
in-range month and day fields? -/
def validYMDChars : List Char → Bool
  | [y1, y2, y3, y4, s1, m1, m2, s2, d1, d2] =>
    s1 == '-' && s2 == '-' &&
    isDig y1 && isDig y2 && isDig y3 && isDig y4 &&
    isDig m1 && isDig m2 && isDig d1 && isDig d2 &&
    decide (1 ≤ 10 * c2n m1 + c2n m2) &&
    decide (10 * c2n m1 + c2n m2 ≤ 12) &&
    decide (1 ≤ 10 * c2n d1 + c2n d2) &&
    decide (10 * c2n d1 + c2n d2 ≤
      daysInMonth (1000 * c2n y1 + 100 * c2n y2 + 10 * c2n y3 + c2n y4)
        (10 * c2n m1 + c2n m2))
  | _ => false

/-! ### The invoice data model

Only the fields `generateZatcaQrCode` actually reads are modelled; the
remaining `Invoice` fields of `types/Invoice.ts` (`id`, `number`,
`customer`, `items`, `subtotal`, `paid`, `discount`, `remaining`,
`notes`) and the remaining `CompanyInfo` fields (`address`, `city`,
`email`, `phone`, `bankName`, `iban`) are never consulted by the
encoder.  `Option` models a field that is `undefined` at runtime (the
persisted records come from a remote document store, so the code guards
with `?.` and `||`); rationals model JavaScript numbers. -/

structure CompanyInfo where
  name : Option String
  taxNumber : Option String

structure Invoice where
  company : Option CompanyInfo
  date : Option String
  taxAmount : Option ℚ
  total : Option ℚ

/-- `invoice.company?.name || 'Unknown Seller'`: the `?.` chain yields
`undefined` for a missing company or name, and `||` also replaces the
empty string (falsy) by the placeholder. -/
def sellerName (invoice : Invoice) : String :=
  match invoice.company with
  | some c =>
    match c.name with
    | some s => if s = "" then "Unknown Seller" else s
    | none => "Unknown Seller"
  | none => "Unknown Seller"

/-- `invoice.company?.taxNumber || '000000000000000'`. -/
def vatRegistrationNumber (invoice : Invoice) : String :=
  match invoice.company with
  | some c =>
    match c.taxNumber with
    | some s => if s = "" then "000000000000000" else s
    | none => "000000000000000"
  | none => "000000000000000"

/-- The date-time resolution of `generateZatcaQrCode`: start from the
current instant (`now`, the `toISOString` rendering of `new Date()`),
and when the `date` field is truthy, parse `invoice.date +
'T00:00:00.000Z'`; if that yields a valid date, use its `toISOString`
rendering instead. -/
def invoiceDateTime (now : String) (invoice : Invoice) : String :=
  match invoice.date with
  | some d =>
    if d = "" then now
    else
      match jsDateToISO (d ++ "T00:00:00.000Z") with
      | some iso => iso
      | none => now
  | none => now

/-- `(invoice.taxAmount || 0).toFixed(2)` (an absent amount is falsy and
becomes `0`). -/
def totalVatAmount (invoice : Invoice) : String :=
  toFixed2 (match invoice.taxAmount with | some q => q | none => 0)

/-- `(invoice.total || 0).toFixed(2)`. -/
def totalInvoiceAmount (invoice : Invoice) : String :=
  toFixed2 (match invoice.total with | some q => q | none => 0)

/-- The combined TLV byte buffer of `generateZatcaQrCode`: the five
records with tags 1–5 concatenated in order, no separators. -/
def zatcaPayload (now : String) (invoice : Invoice) : List Nat :=
  encodeTLV 1 (sellerName invoice) ++
  encodeTLV 2 (vatRegistrationNumber invoice) ++
  encodeTLV 3 (invoiceDateTime now invoice) ++
  encodeTLV 4 (totalVatAmount invoice) ++
  encodeTLV 5 (totalInvoiceAmount invoice)

/-- `generateZatcaQrCode` from `qrCodeUtils.ts`: resolve the five
fields, TLV-encode them, concatenate, and base64 the bytes via
`btoa(String.fromCharCode(...))`. -/
def generateZatcaQrCode (now : String) (invoice : Invoice) : Option String :=
  btoa (zatcaPayload now invoice)

/-- Base64-decode the encoder's output and re-parse it as a TLV stream. -/
def decodedRecords (now : String) (invoice : Invoice) :
    Option (List (Nat × List Nat)) :=
  match generateZatcaQrCode now invoice with
  | some s =>
    match base64Decode s with
    | some bs => parseTLVRecords bs
    | none => none
  | none => none

/-- Every byte of a TLV record fits in one octet. -/
theorem encodeTLV_lt (tag : Nat) (value : String) :
    ∀ b ∈ encodeTLV tag value, b < 256 := by
  intro b hb
  unfold encodeTLV at hb
  rcases hb with _ | ⟨_, hb⟩
  · exact Nat.mod_lt _ (by omega)
  · rcases hb with _ | ⟨_, hb⟩
    · exact Nat.mod_lt _ (by omega)
    · exact utf8Bytes_lt value b hb

/-- Every byte of the combined payload fits in one octet. -/
theorem zatcaPayload_lt (now : String) (invoice : Invoice) :
    ∀ b ∈ zatcaPayload now invoice, b < 256 := by
  intro b hb
  unfold zatcaPayload at hb
  simp only [List.mem_append] at hb
  rcases hb with ((((hb | hb) | hb) | hb) | hb) <;>
    exact encodeTLV_lt _ _ b hb

theorem parseTLVRecords_nil : parseTLVRecords [] = some [] := rfl

/-- Master decoding law: whenever the five resolved field values each
fit in 255 UTF-8 bytes, the encoder's output decodes and re-parses to
exactly the five records with tags 1–5 in order, each carrying the
UTF-8 bytes of its resolved value. -/
theorem decodedRecords_spec (now : String) (invoice : Invoice)
    (h1 : (utf8Bytes (sellerName invoice)).length ≤ 255)
    (h2 : (utf8Bytes (vatRegistrationNumber invoice)).length ≤ 255)
    (h3 : (utf8Bytes (invoiceDateTime now invoice)).length ≤ 255)
    (h4 : (utf8Bytes (totalVatAmount invoice)).length ≤ 255)
    (h5 : (utf8Bytes (totalInvoiceAmount invoice)).length ≤ 255) :
    decodedRecords now invoice = some
      [(1, utf8Bytes (sellerName invoice)),
       (2, utf8Bytes (vatRegistrationNumber invoice)),
       (3, utf8Bytes (invoiceDateTime now invoice)),
       (4, utf8Bytes (totalVatAmount invoice)),
       (5, utf8Bytes (totalInvoiceAmount invoice))] := by
  obtain ⟨s, hs, hdec⟩ :=
    btoa_roundtrip (zatcaPayload now invoice) (zatcaPayload_lt now invoice)
  have hred : decodedRecords now invoice =
      parseTLVRecords (zatcaPayload now invoice) := by
    unfold decodedRecords generateZatcaQrCode
    rw [hs]
    show (match base64Decode s with
      | some bs => parseTLVRecords bs
      | none => none) = _
    rw [hdec]
  rw [hred]
  unfold zatcaPayload
  simp only [List.append_assoc]
  rw [parseTLVRecords_encodeTLV_append 1 _ _ h1,
    parseTLVRecords_encodeTLV_append 2 _ _ h2,
    parseTLVRecords_encodeTLV_append 3 _ _ h3,
    parseTLVRecords_encodeTLV_append 4 _ _ h4]
  rw [show encodeTLV 5 (totalInvoiceAmount invoice) =
    encodeTLV 5 (totalInvoiceAmount invoice) ++ [] by simp]
  rw [parseTLVRecords_encodeTLV_append 5 _ _ h5, parseTLVRecords_nil]

/-! ### ASCII and calendar-date helper lemmas -/

/-- ASCII characters encode to a single UTF-8 byte. -/
theorem utf8EncodeChar_ascii (c : Char) (h : c.toNat < 128) :
    utf8EncodeChar c = [c.toNat] := by
  simp [utf8EncodeChar, h]

/-- An all-ASCII character list has as many UTF-8 bytes as characters. -/
theorem utf8List_length_ascii : ∀ l : List Char, (∀ c ∈ l, c.toNat < 128) →
    (l.flatMap utf8EncodeChar).length = l.length := by
  intro l hl
  induction l with
  | nil => rfl
  | cons c t ih =>
    rw [List.flatMap_cons, List.length_append,
      utf8EncodeChar_ascii c (hl c (by simp)),
      ih (fun x hx => hl x (by simp [hx]))]
    simp [Nat.add_comm]

/-- An all-ASCII string has as many UTF-8 bytes as characters. -/
theorem utf8Bytes_length_ascii (s : String)
    (h : ∀ c ∈ s.data, c.toNat < 128) :
    (utf8Bytes s).length = s.data.length :=
  utf8List_length_ascii s.data h

/-- A digit character is ASCII. -/
theorem isDig_ascii (c : Char) (h : isDig c = true) : c.toNat < 128 := by
  simp [isDig] at h
  omega

/-- Unfolding the date-time resolution when the `date` field is present. -/
theorem invoiceDateTime_some (now : String) (invoice : Invoice) (d : String)
    (hd : invoice.date = some d) :
    invoiceDateTime now invoice =
      if d = "" then now
      else
        match jsDateToISO (d ++ "T00:00:00.000Z") with
        | some iso => iso
        | none => now := by
  unfold invoiceDateTime
  rw [hd]

/-- A canonical in-range instant string parses to itself. -/
theorem jsDateToISO_valid (s : String) (h : validISOChars s.data = true) :
    jsDateToISO s = some s := by
  unfold jsDateToISO
  rw [if_pos h]

/-- When the invoice `date` field holds a well-formed `YYYY-MM-DD`
calendar date, appending `'T00:00:00.000Z'` yields a canonical in-range
instant string, so the date-time resolution returns exactly that
appended string (midnight UTC of the invoice date); moreover the result
is 24 ASCII characters, hence 24 UTF-8 bytes. -/
theorem invoiceDateTime_valid_ymd (now : String) (invoice : Invoice) (d : String)
    (hd : invoice.date = some d) (hv : validYMDChars d.data = true) :
    invoiceDateTime now invoice = d ++ "T00:00:00.000Z" ∧
    (utf8Bytes (d ++ "T00:00:00.000Z")).length = 24 := by
  obtain ⟨l⟩ := d
  rcases l with _ | ⟨a1, _ | ⟨a2, _ | ⟨a3, _ | ⟨a4, _ | ⟨a5, _ | ⟨a6, _ | ⟨a7,
    _ | ⟨a8, _ | ⟨a9, _ | ⟨a10, _ | ⟨a11, rest⟩⟩⟩⟩⟩⟩⟩⟩⟩⟩⟩ <;>
    simp only [validYMDChars, Bool.false_eq_true] at hv
  simp only [Bool.and_eq_true, beq_iff_eq,
    decide_eq_true_eq, and_assoc] at hv
  obtain ⟨hs1, hs2, hy1, hy2, hy3, hy4, hm1, hm2, hd1, hd2, hr1, hr2, hr3, hr4⟩ := hv
  subst hs1
  subst hs2
  have hiso : validISOChars
      (String.mk [a1, a2, a3, a4, '-', a6, a7, '-', a9, a10] ++
        "T00:00:00.000Z").data = true := by
    show validISOChars
      ([a1, a2, a3, a4, '-', a6, a7, '-', a9, a10] ++ "T00:00:00.000Z".data) = true
    simp only [List.cons_append, List.nil_append]
    simp only [validISOChars, Bool.and_eq_true, beq_iff_eq,
      decide_eq_true_eq, and_assoc]
    refine ⟨True.intro, True.intro, True.intro, True.intro, True.intro,
      True.intro, True.intro, hy1, hy2, hy3, hy4,
      hm1, hm2, hd1, hd2, by decide, by decide, by decide, by decide,
      by decide, by decide, by decide, by decide, by decide,
      hr1, hr2, hr3, hr4, by decide, by decide, by decide⟩
  constructor
  · rw [invoiceDateTime_some now invoice _ hd,
      if_neg (fun hemp => by simpa using congrArg String.data hemp),
      jsDateToISO_valid _ hiso]
  · rw [utf8Bytes_length_ascii]
    · rfl
    · intro c hc
      have : (String.mk [a1, a2, a3, a4, '-', a6, a7, '-', a9, a10] ++
          "T00:00:00.000Z").data =
          [a1, a2, a3, a4, '-', a6, a7, '-', a9, a10] ++ "T00:00:00.000Z".data := rfl
      rw [this] at hc
      simp only [List.cons_append, List.nil_append, List.mem_cons] at hc
      rcases hc with rfl | rfl | rfl | rfl | rfl | rfl | rfl | rfl | rfl | rfl | hc
      · exact isDig_ascii _ hy1
      · exact isDig_ascii _ hy2
      · exact isDig_ascii _ hy3
      · exact isDig_ascii _ hy4
      · decide
      · exact isDig_ascii _ hm1
      · exact isDig_ascii _ hm2
      · decide
      · exact isDig_ascii _ hd1
      · exact isDig_ascii _ hd2
      · -- remaining: the 14 literal suffix characters
        simp only [List.not_mem_nil, List.mem_cons] at hc
        rcases hc with rfl | rfl | rfl | rfl | rfl | rfl | rfl | rfl | rfl |
          rfl | rfl | rfl | rfl | rfl | hc
        all_goals first | decide | (exact absurd hc (by simp))

/-! ### Shape of the formatted amounts -/

theorem digitChar_isDig : ∀ k, k < 10 → isDig (digitChar k) = true := by decide

/-- Every character emitted by the digit accumulator is a decimal digit. -/
theorem natDigitsAux_isDig : ∀ fuel n c, c ∈ natDigitsAux fuel n →
    isDig c = true := by
  intro fuel
  induction fuel with
  | zero => intro n c hc; simp [natDigitsAux] at hc
  | succ m ih =>
    intro n c hc
    simp only [natDigitsAux] at hc
    by_cases h10 : n < 10
    · simp only [h10, if_true, List.mem_singleton] at hc
      subst hc
      exact digitChar_isDig n h10
    · simp only [h10, if_false, List.mem_append, List.mem_singleton] at hc
      rcases hc with hc | hc
      · exact ih _ _ hc
      · subst hc
        exact digitChar_isDig _ (Nat.mod_lt _ (by omega))

/-- A digit character is neither a decimal point nor a comma. -/
theorem isDig_not_sep (c : Char) (h : isDig c = true) :
    (!(c == '.') && !(c == ',')) = true := by
  simp only [Bool.and_eq_true, Bool.not_eq_true', beq_eq_false_iff_ne, ne_eq]
  constructor <;> rintro rfl <;> exact absurd h (by decide)

theorem pad2_spec : ∀ k, k < 100 →
    (pad2 k).length = 2 ∧ (pad2 k).data.all isDig = true := by decide

/-- `s` ends in a decimal point followed by exactly two decimal digits,
and its integer part contains neither another decimal point nor any
grouping separator. -/
def TwoFracDigits (s : String) : Prop :=
  ∃ a b, s = a ++ "." ++ b ∧ b.length = 2 ∧ b.data.all isDig = true ∧
    a.data.all (fun c => !(c == '.') && !(c == ',')) = true

/-- Below `toFixed`'s `10^21` threshold, every formatted amount has
exactly two fraction digits and no grouping separators. -/
theorem toFixed2_twoFrac (x : ℚ)
    (hx : x.num.natAbs < 1000000000000000000000 * x.den) :
    TwoFracDigits (toFixed2 x) := by
  unfold toFixed2
  rw [if_neg (by omega)]
  refine ⟨(if x < 0 then "-" else "") ++
      natToString ((200 * x.num.natAbs + x.den) / (2 * x.den) / 100),
    pad2 ((200 * x.num.natAbs + x.den) / (2 * x.den) % 100), rfl,
    (pad2_spec _ (Nat.mod_lt _ (by omega))).1,
    (pad2_spec _ (Nat.mod_lt _ (by omega))).2, ?_⟩
  have hall : ∀ c ∈ natDigits ((200 * x.num.natAbs + x.den) / (2 * x.den) / 100),
      (!(c == '.') && !(c == ',')) = true :=
    fun c hc => isDig_not_sep c (natDigitsAux_isDig _ _ c hc)
  by_cases hx : x < 0 <;>
    simp only [hx, if_true, if_false] <;>
    simp only [natToString, List.all_eq_true] <;>
    intro c hc
  · rcases List.mem_append.mp hc with hc | hc
    · simp only [List.mem_singleton] at hc
      subst hc
      decide
    · exact hall c hc
  · rcases List.mem_append.mp hc with hc | hc
    · simp at hc
    · exact hall c hc

/-! ### Concrete inputs used to exercise the claims -/

/-- The worked example of the specification: seller `"Test Co"`, tax id
`"123456789012345"`, invoice date `2024-01-15`, tax 15, total 115. -/
def exampleInvoice : Invoice :=
  { company := some { name := some "Test Co", taxNumber := some "123456789012345" },
    date := some "2024-01-15", taxAmount := some 15, total := some 115 }

/-- A fixed rendering of the host clock at encode time. -/
def exampleNow : String := "2099-06-01T12:00:00.000Z"

/-- An invoice with every optional datum absent. -/
def emptyInvoice : Invoice :=
  { company := none, date := none, taxAmount := none, total := none }

/-- All five resolved field values fit the single-byte TLV length field. -/
abbrev FieldsFit (now : String) (invoice : Invoice) : Prop :=
  (utf8Bytes (sellerName invoice)).length ≤ 255 ∧
  (utf8Bytes (vatRegistrationNumber invoice)).length ≤ 255 ∧
  (utf8Bytes (invoiceDateTime now invoice)).length ≤ 255 ∧
  (utf8Bytes (totalVatAmount invoice)).length ≤ 255 ∧
  (utf8Bytes (totalInvoiceAmount invoice)).length ≤ 255

/-! ### The claims -/

/-- C2: for every tag in `[0, 255]` and every value whose UTF-8
encoding has at most 255 bytes, `encodeTLV` returns exactly
`2 + length` bytes: the tag byte, then the length byte equal to the
number of UTF-8 bytes of the value (not code points), then the raw
UTF-8 value bytes in order, with no padding and no terminator. -/
theorem c2_encodeTLV_shape (tag : Nat) (value : String)
    (htag : tag ≤ 255) (hlen : (utf8Bytes value).length ≤ 255) :
    encodeTLV tag value =
      tag :: (utf8Bytes value).length :: utf8Bytes value ∧
    (encodeTLV tag value).length = 2 + (utf8Bytes value).length := by
  simp only [encodeTLV]
  rw [Nat.mod_eq_of_lt (by omega), Nat.mod_eq_of_lt (by omega)]
  exact ⟨rfl, by simp only [List.length_cons]; omega⟩

theorem c2_encodeTLV_shape_witness :
    encodeTLV 1 "Test Co" = 1 :: 7 :: utf8Bytes "Test Co" ∧
    (encodeTLV 1 "Test Co").length = 2 + (utf8Bytes "Test Co").length := by
  have h := c2_encodeTLV_shape 1 "Test Co" (by omega) (by decide)
  rw [show (utf8Bytes "Test Co").length = 7 from by decide] at h
  exact h

/-- C10: for every value whose UTF-8 encoding exceeds 255 bytes,
`encodeTLV` still returns `2 + L` bytes, but the single-byte length
field wraps to `L mod 256` and no longer matches the value's byte
count; the value bytes are stored in full, neither truncated nor
rejected. -/
theorem c10_encodeTLV_overflow (tag : Nat) (value : String)
    (htag : tag ≤ 255) (hlen : 255 < (utf8Bytes value).length) :
    (encodeTLV tag value).length = 2 + (utf8Bytes value).length ∧
    encodeTLV tag value =
      tag :: ((utf8Bytes value).length % 256) :: utf8Bytes value ∧
    (utf8Bytes value).length % 256 ≠ (utf8Bytes value).length := by
  simp only [encodeTLV]
  rw [Nat.mod_eq_of_lt (show tag < 256 by omega)]
  refine ⟨by simp only [List.length_cons]; omega, rfl, ?_⟩
  have : (utf8Bytes value).length % 256 < 256 := Nat.mod_lt _ (by omega)
  omega

set_option maxRecDepth 4000 in
theorem c10_encodeTLV_overflow_witness :
    (encodeTLV 1 (String.mk (List.replicate 256 'a'))).length =
      2 + (utf8Bytes (String.mk (List.replicate 256 'a'))).length ∧
    encodeTLV 1 (String.mk (List.replicate 256 'a')) =
      1 :: ((utf8Bytes (String.mk (List.replicate 256 'a'))).length % 256) ::
        utf8Bytes (String.mk (List.replicate 256 'a')) ∧
    (utf8Bytes (String.mk (List.replicate 256 'a'))).length % 256 ≠
      (utf8Bytes (String.mk (List.replicate 256 'a'))).length :=
  c10_encodeTLV_overflow 1 (String.mk (List.replicate 256 'a'))
    (by omega) (by decide)

/-- C6: for every invoice input — including inputs with missing seller
name, missing tax id, missing date, and missing amounts — the encoder
never raises: every produced byte fits `btoa`'s one-octet constraint,
so a string is always returned; and the fully-absent invoice resolves
to the documented defaults (placeholder seller, 15 zero digits, the
current instant, and zero amounts). -/
theorem c6_never_fails (now : String) (invoice : Invoice) :
    (∃ s, generateZatcaQrCode now invoice = some s) ∧
    sellerName emptyInvoice = "Unknown Seller" ∧
    vatRegistrationNumber emptyInvoice = "000000000000000" ∧
    invoiceDateTime now emptyInvoice = now ∧
    totalVatAmount emptyInvoice = "0.00" ∧
    totalInvoiceAmount emptyInvoice = "0.00" := by
  obtain ⟨s, hs, _⟩ :=
    btoa_roundtrip (zatcaPayload now invoice) (zatcaPayload_lt now invoice)
  exact ⟨⟨s, hs⟩, rfl, rfl, rfl, by decide, by decide⟩

/-- C7: for every invoice whose date field parses successfully (so the
fallback to the current instant never fires), the encoder's output does
not depend on the host clock: two calls at different instants produce
byte-identical strings.  (The embedding is a pure function of `now` and
the invoice, mirroring that the source reads no other state.) -/
theorem c7_deterministic (now1 now2 : String) (invoice : Invoice)
    (h : ∃ d, invoice.date = some d ∧ d ≠ "" ∧
      (jsDateToISO (d ++ "T00:00:00.000Z")).isSome = true) :
    generateZatcaQrCode now1 invoice = generateZatcaQrCode now2 invoice := by
  obtain ⟨d, hd, hne, hsome⟩ := h
  have hdt : invoiceDateTime now1 invoice = invoiceDateTime now2 invoice := by
    rw [invoiceDateTime_some now1 invoice d hd,
      invoiceDateTime_some now2 invoice d hd, if_neg hne, if_neg hne]
    obtain ⟨iso, hiso⟩ := Option.isSome_iff_exists.mp hsome
    rw [hiso]
  unfold generateZatcaQrCode zatcaPayload
  rw [hdt]

theorem c7_deterministic_witness :
    generateZatcaQrCode "2099-06-01T12:00:00.000Z" exampleInvoice =
    generateZatcaQrCode "2001-02-03T04:05:06.007Z" exampleInvoice :=
  c7_deterministic _ _ exampleInvoice
    ⟨"2024-01-15", rfl, by decide, by decide⟩

/-- C1: whenever the five resolved field values each fit in 255 UTF-8
bytes, base64-decoding the encoder's output and re-parsing the TLV
stream recovers exactly five records with tags 1–5 in that order, each
record's declared length byte equal to the UTF-8 byte length of its
value (the parser consumes exactly the declared number of value bytes),
and the `2 + length` chunks exactly spanning the buffer with no
leftover bytes. -/
theorem c1_roundtrip_five_records (now : String) (invoice : Invoice)
    (h : FieldsFit now invoice) :
    decodedRecords now invoice = some
      [(1, utf8Bytes (sellerName invoice)),
       (2, utf8Bytes (vatRegistrationNumber invoice)),
       (3, utf8Bytes (invoiceDateTime now invoice)),
       (4, utf8Bytes (totalVatAmount invoice)),
       (5, utf8Bytes (totalInvoiceAmount invoice))] ∧
    (zatcaPayload now invoice).length =
      10 + (utf8Bytes (sellerName invoice)).length +
      (utf8Bytes (vatRegistrationNumber invoice)).length +
      (utf8Bytes (invoiceDateTime now invoice)).length +
      (utf8Bytes (totalVatAmount invoice)).length +
      (utf8Bytes (totalInvoiceAmount invoice)).length := by
  obtain ⟨h1, h2, h3, h4, h5⟩ := h
  refine ⟨decodedRecords_spec now invoice h1 h2 h3 h4 h5, ?_⟩
  simp only [zatcaPayload, encodeTLV, List.length_append, List.length_cons]
  omega

theorem c1_roundtrip_five_records_witness :
    FieldsFit exampleNow exampleInvoice ∧
    (decodedRecords exampleNow exampleInvoice = some
      [(1, utf8Bytes (sellerName exampleInvoice)),
       (2, utf8Bytes (vatRegistrationNumber exampleInvoice)),
       (3, utf8Bytes (invoiceDateTime exampleNow exampleInvoice)),
       (4, utf8Bytes (totalVatAmount exampleInvoice)),
       (5, utf8Bytes (totalInvoiceAmount exampleInvoice))] ∧
    (zatcaPayload exampleNow exampleInvoice).length =
      10 + (utf8Bytes (sellerName exampleInvoice)).length +
      (utf8Bytes (vatRegistrationNumber exampleInvoice)).length +
      (utf8Bytes (invoiceDateTime exampleNow exampleInvoice)).length +
      (utf8Bytes (totalVatAmount exampleInvoice)).length +
      (utf8Bytes (totalInvoiceAmount exampleInvoice)).length) :=
  ⟨by decide, c1_roundtrip_five_records exampleNow exampleInvoice (by decide)⟩

/-- An invoice whose `date` field already carries a time component:
the code appends a second `'T00:00:00.000Z'`, so the parse fails. -/
def c3Invoice : Invoice :=
  { company := some { name := some "Test Co", taxNumber := some "123456789012345" },
    date := some "2024-01-15T10:30:00Z", taxAmount := some 15, total := some 115 }

/-- C3 counterexample: for the input timestamp `2024-01-15T10:30:00Z`
the claim predicts record 3 decodes to `"2024-01-15T10:30:00.000Z"`,
but the code concatenates `invoice.date + 'T00:00:00.000Z'`, producing
the unparseable `"2024-01-15T10:30:00ZT00:00:00.000Z"`; the parse fails
and record 3 is the current instant at encode time instead. -/
theorem c3_timestamp_counterexample :
    decodedRecords exampleNow c3Invoice = some
      [(1, utf8Bytes "Test Co"), (2, utf8Bytes "123456789012345"),
       (3, utf8Bytes exampleNow), (4, utf8Bytes "15.00"),
       (5, utf8Bytes "115.00")] ∧
    invoiceDateTime exampleNow c3Invoice = exampleNow ∧
    utf8Bytes exampleNow ≠ utf8Bytes "2024-01-15T10:30:00.000Z" := by decide

/-- C3 amended: record 3 carries the invoice date at midnight UTC in
the `YYYY-MM-DDTHH:mm:ss.sssZ` format when the stored date is a plain
calendar date (`"2024-01-15"` yields `"2024-01-15T00:00:00.000Z"`); an
input that already carries a time component, such as
`"2024-01-15T10:30:00Z"`, fails to parse once the code appends its own
time suffix, and record 3 falls back to the current instant. -/
theorem c3_amended_midnight_render :
    invoiceDateTime exampleNow exampleInvoice = "2024-01-15T00:00:00.000Z" ∧
    decodedRecords exampleNow exampleInvoice = some
      [(1, utf8Bytes "Test Co"), (2, utf8Bytes "123456789012345"),
       (3, utf8Bytes "2024-01-15T00:00:00.000Z"), (4, utf8Bytes "15.00"),
       (5, utf8Bytes "115.00")] ∧
    invoiceDateTime exampleNow c3Invoice = exampleNow := by decide

/-- C9: for every invoice whose date field is a well-formed calendar
date `YYYY-MM-DD` (no time component), the resolved instant — and hence
record 3 of the decoded payload — is exactly that date string with
`"T00:00:00.000Z"` appended: always midnight UTC of the invoice date,
regardless of the time of day the invoice was issued. -/
theorem c9_calendar_date_midnight (now : String) (invoice : Invoice) (d : String)
    (hd : invoice.date = some d) (hv : validYMDChars d.data = true)
    (h1 : (utf8Bytes (sellerName invoice)).length ≤ 255)
    (h2 : (utf8Bytes (vatRegistrationNumber invoice)).length ≤ 255)
    (h4 : (utf8Bytes (totalVatAmount invoice)).length ≤ 255)
    (h5 : (utf8Bytes (totalInvoiceAmount invoice)).length ≤ 255) :
    invoiceDateTime now invoice = d ++ "T00:00:00.000Z" ∧
    decodedRecords now invoice = some
      [(1, utf8Bytes (sellerName invoice)),
       (2, utf8Bytes (vatRegistrationNumber invoice)),
       (3, utf8Bytes (d ++ "T00:00:00.000Z")),
       (4, utf8Bytes (totalVatAmount invoice)),
       (5, utf8Bytes (totalInvoiceAmount invoice))] := by
  obtain ⟨heq, hlen⟩ := invoiceDateTime_valid_ymd now invoice d hd hv
  have h3 : (utf8Bytes (invoiceDateTime now invoice)).length ≤ 255 := by
    rw [heq, hlen]
    omega
  have hmaster := decodedRecords_spec now invoice h1 h2 h3 h4 h5
  rw [heq] at hmaster
  exact ⟨heq, hmaster⟩

/-- An invoice issued on New Year's Eve with no other data. -/
def c9Invoice : Invoice :=
  { company := none, date := some "2023-12-31", taxAmount := none, total := none }

theorem c9_calendar_date_midnight_witness :
    (c9Invoice.date = some "2023-12-31" ∧
     validYMDChars ("2023-12-31" : String).data = true) ∧
    invoiceDateTime "2098-01-01T00:00:00.000Z" c9Invoice =
      "2023-12-31" ++ "T00:00:00.000Z" ∧
    decodedRecords "2098-01-01T00:00:00.000Z" c9Invoice = some
      [(1, utf8Bytes (sellerName c9Invoice)),
       (2, utf8Bytes (vatRegistrationNumber c9Invoice)),
       (3, utf8Bytes ("2023-12-31" ++ "T00:00:00.000Z")),
       (4, utf8Bytes (totalVatAmount c9Invoice)),
       (5, utf8Bytes (totalInvoiceAmount c9Invoice))] := by
  have h := c9_calendar_date_midnight "2098-01-01T00:00:00.000Z" c9Invoice
    "2023-12-31" rfl (by decide) (by decide) (by decide) (by decide) (by decide)
  exact ⟨⟨rfl, by decide⟩, h.1, h.2⟩

/-- A string with a two-digit fraction part necessarily contains a
decimal point. -/
theorem twoFrac_has_dot (s : String) (h : TwoFracDigits s) : '.' ∈ s.data := by
  obtain ⟨a, b, heq, -, -, -⟩ := h
  rw [heq]
  simp [String.data_append]

/-- An invoice whose amounts sit exactly at `toFixed`'s `10^21`
threshold (representable: `10^21 = 2^21 * 5^21` and `5^21 < 2^53`). -/
def c4LargeInvoice : Invoice :=
  { company := none, date := none,
    taxAmount := some 1000000000000000000000,
    total := some 1000000000000000000000 }

/-- C4 counterexample: at the amount `10^21` the formatter takes
`toFixed`'s `ToString` branch and produces `"1e+21"`, so records 4 and
5 decode to a string in exponential notation with no decimal point at
all — not a decimal string with exactly two fraction digits. -/
theorem c4_large_amount_counterexample :
    toFixed2 1000000000000000000000 = "1e+21" ∧
    decodedRecords exampleNow c4LargeInvoice = some
      [(1, utf8Bytes "Unknown Seller"), (2, utf8Bytes "000000000000000"),
       (3, utf8Bytes exampleNow), (4, utf8Bytes "1e+21"),
       (5, utf8Bytes "1e+21")] ∧
    ¬TwoFracDigits "1e+21" :=
  ⟨by decide, by decide,
   fun h => absurd (twoFrac_has_dot _ h) (by decide)⟩

/-- C4 amended: for every amount of magnitude below `10^21` (every
amount that reaches `toFixed`'s fixed-decimal branch), records 4 and 5
render with exactly two fraction digits and no grouping separators; at
or above `10^21` the formatter instead returns the `ToString`
exponential form.  A missing amount renders as `"0.00"`, and the
formatter sends `0`, `0.1`, `1234.5` and `1000000.456` to `"0.00"`,
`"0.10"`, `"1234.50"` and `"1000000.46"` respectively. -/
theorem c4_amount_formatting_below_threshold :
    (∀ x : ℚ, x.num.natAbs < 1000000000000000000000 * x.den →
      TwoFracDigits (toFixed2 x)) ∧
    toFixed2 0 = "0.00" ∧
    toFixed2 (mkRat 1 10) = "0.10" ∧
    toFixed2 (mkRat 12345 10) = "1234.50" ∧
    toFixed2 (mkRat 1000000456 1000) = "1000000.46" ∧
    (∀ invoice : Invoice, invoice.taxAmount = none →
      totalVatAmount invoice = "0.00") ∧
    (∀ invoice : Invoice, invoice.total = none →
      totalInvoiceAmount invoice = "0.00") ∧
    (∀ (now : String) (invoice : Invoice), FieldsFit now invoice →
      ∃ r1 r2 r3, decodedRecords now invoice = some
        [r1, r2, r3, (4, utf8Bytes (totalVatAmount invoice)),
         (5, utf8Bytes (totalInvoiceAmount invoice))]) := by
  refine ⟨toFixed2_twoFrac, by decide, by decide, by decide, by decide,
    ?_, ?_, ?_⟩
  · intro invoice h
    simp only [totalVatAmount, h]
    decide
  · intro invoice h
    simp only [totalInvoiceAmount, h]
    decide
  · intro now invoice hfit
    obtain ⟨h1, h2, h3, h4, h5⟩ := hfit
    exact ⟨_, _, _, decodedRecords_spec now invoice h1 h2 h3 h4 h5⟩

/-- An invoice exercising the fraction-digit rendering. -/
def c4Invoice : Invoice :=
  { company := none, date := none, taxAmount := some (mkRat 1 10),
    total := some (mkRat 12345 10) }

theorem c4_amount_formatting_below_threshold_witness :
    ((mkRat 1 10 : ℚ).num.natAbs < 1000000000000000000000 * (mkRat 1 10 : ℚ).den ∧
      TwoFracDigits (toFixed2 (mkRat 1 10))) ∧
    (emptyInvoice.taxAmount = none ∧ totalVatAmount emptyInvoice = "0.00") ∧
    (FieldsFit exampleNow c4Invoice ∧
      ∃ r1 r2 r3, decodedRecords exampleNow c4Invoice = some
        [r1, r2, r3, (4, utf8Bytes (totalVatAmount c4Invoice)),
         (5, utf8Bytes (totalInvoiceAmount c4Invoice))]) :=
  ⟨⟨by decide, c4_amount_formatting_below_threshold.1 (mkRat 1 10) (by decide)⟩,
   ⟨rfl, c4_amount_formatting_below_threshold.2.2.2.2.2.1 emptyInvoice rfl⟩,
   ⟨by decide, c4_amount_formatting_below_threshold.2.2.2.2.2.2.2 exampleNow
      c4Invoice (by decide)⟩⟩

/-- C5: an absent seller name resolves record 1 to the placeholder
`"Unknown Seller"`, an absent seller tax id resolves record 2 to
fifteen zero digits, and neither absence prevents the encoder from
returning a string. -/
theorem c5_missing_seller_defaults (now : String) (invoice : Invoice)
    (hfit : FieldsFit now invoice) :
    (∃ s, generateZatcaQrCode now invoice = some s) ∧
    ((invoice.company = none ∨
        ∃ c, invoice.company = some c ∧ c.name = none) →
      sellerName invoice = "Unknown Seller" ∧
      ∃ rest, decodedRecords now invoice =
        some ((1, utf8Bytes "Unknown Seller") :: rest)) ∧
    ((invoice.company = none ∨
        ∃ c, invoice.company = some c ∧ c.taxNumber = none) →
      vatRegistrationNumber invoice = "000000000000000" ∧
      ∃ r1 rest, decodedRecords now invoice =
        some (r1 :: (2, utf8Bytes "000000000000000") :: rest)) := by
  obtain ⟨h1, h2, h3, h4, h5⟩ := hfit
  have hmaster := decodedRecords_spec now invoice h1 h2 h3 h4 h5
  refine ⟨?_, ?_, ?_⟩
  · obtain ⟨s, hs, _⟩ :=
      btoa_roundtrip (zatcaPayload now invoice) (zatcaPayload_lt now invoice)
    exact ⟨s, hs⟩
  · intro hpre
    have hname : sellerName invoice = "Unknown Seller" := by
      rcases hpre with hc | ⟨c, hc, hn⟩
      · simp [sellerName, hc]
      · simp [sellerName, hc, hn]
    rw [hname] at hmaster
    exact ⟨hname, _, hmaster⟩
  · intro hpre
    have hvat : vatRegistrationNumber invoice = "000000000000000" := by
      rcases hpre with hc | ⟨c, hc, hn⟩
      · simp [vatRegistrationNumber, hc]
      · simp [vatRegistrationNumber, hc, hn]
    rw [hvat] at hmaster
    exact ⟨hvat, _, _, hmaster⟩

theorem c5_missing_seller_defaults_witness :
    FieldsFit exampleNow emptyInvoice ∧
    sellerName emptyInvoice = "Unknown Seller" ∧
    (∃ rest, decodedRecords exampleNow emptyInvoice =
      some ((1, utf8Bytes "Unknown Seller") :: rest)) ∧
    vatRegistrationNumber emptyInvoice = "000000000000000" ∧
    (∃ r1 rest, decodedRecords exampleNow emptyInvoice =
      some (r1 :: (2, utf8Bytes "000000000000000") :: rest)) := by
  have h := c5_missing_seller_defaults exampleNow emptyInvoice (by decide)
  exact ⟨by decide, (h.2.1 (Or.inl rfl)).1, (h.2.1 (Or.inl rfl)).2,
    (h.2.2 (Or.inl rfl)).1, (h.2.2 (Or.inl rfl)).2⟩

/-- C8 (implicit): the placeholder substitution fires not only for an
absent field but also for an empty string, because JavaScript's `||`
treats `""` as falsy: an empty company name yields record 1
`"Unknown Seller"`, an empty tax number yields record 2 of fifteen
zeros. -/
theorem c8_empty_string_defaults (now : String) (invoice : Invoice)
    (hfit : FieldsFit now invoice) :
    ((∃ c, invoice.company = some c ∧ c.name = some "") →
      sellerName invoice = "Unknown Seller" ∧
      ∃ rest, decodedRecords now invoice =
        some ((1, utf8Bytes "Unknown Seller") :: rest)) ∧
    ((∃ c, invoice.company = some c ∧ c.taxNumber = some "") →
      vatRegistrationNumber invoice = "000000000000000" ∧
      ∃ r1 rest, decodedRecords now invoice =
        some (r1 :: (2, utf8Bytes "000000000000000") :: rest)) := by
  obtain ⟨h1, h2, h3, h4, h5⟩ := hfit
  have hmaster := decodedRecords_spec now invoice h1 h2 h3 h4 h5
  refine ⟨?_, ?_⟩
  · rintro ⟨c, hc, hn⟩
    have hname : sellerName invoice = "Unknown Seller" := by
      simp [sellerName, hc, hn]
    rw [hname] at hmaster
    exact ⟨hname, _, hmaster⟩
  · rintro ⟨c, hc, hn⟩
    have hvat : vatRegistrationNumber invoice = "000000000000000" := by
      simp [vatRegistrationNumber, hc, hn]
    rw [hvat] at hmaster
    exact ⟨hvat, _, _, hmaster⟩

/-- An invoice whose company record holds empty strings. -/
def c8Invoice : Invoice :=
  { company := some { name := some "", taxNumber := some "" },
    date := none, taxAmount := none, total := none }

theorem c8_empty_string_defaults_witness :
    FieldsFit exampleNow c8Invoice ∧
    sellerName c8Invoice = "Unknown Seller" ∧
    (∃ rest, decodedRecords exampleNow c8Invoice =
      some ((1, utf8Bytes "Unknown Seller") :: rest)) ∧
    vatRegistrationNumber c8Invoice = "000000000000000" ∧
    (∃ r1 rest, decodedRecords exampleNow c8Invoice =
      some (r1 :: (2, utf8Bytes "000000000000000") :: rest)) := by
  have h := c8_empty_string_defaults exampleNow c8Invoice (by decide)
  exact ⟨by decide, (h.1 ⟨_, rfl, rfl⟩).1, (h.1 ⟨_, rfl, rfl⟩).2,
    (h.2 ⟨_, rfl, rfl⟩).1, (h.2 ⟨_, rfl, rfl⟩).2⟩

end Zatca
